import Mathlib

/-!
Shallow embedding of the mapbox client library (Go package `mapbox`) and
proofs about its marshaling layer.

Modelling conventions:
* Go `float32`/`float64` values are modelled as exact rationals (`ℚ`); the
  narrowing conversion `float32(x)` is therefore the identity in the model.
* JSON documents are modelled by the inductive `Jval` below, which mirrors
  exactly the dynamic types Go's `encoding/json` produces when decoding into
  `interface{}`: JSON null ↦ `nil`, booleans ↦ `bool`, numbers ↦ `float64`,
  strings ↦ `string`, arrays ↦ `[]interface{}`, objects ↦
  `map[string]interface{}`.  No other dynamic type can appear.
* Fallible Go functions returning `(T, error)` are modelled as
  `Except String T`; the injected HTTP transport is modelled as a function
  argument so that each operation is a pure function of its transport.
-/

namespace Mapbox

/-- JSON values as produced by Go `encoding/json` when decoding into
`interface{}`.  Object fields keep their textual order. -/
inductive Jval where
  | null : Jval
  | bool : Bool → Jval
  | num : ℚ → Jval
  | str : String → Jval
  | arr : List Jval → Jval
  | obj : List (String × Jval) → Jval

/-- Field lookup in a decoded JSON object; with duplicate keys Go's decoder
keeps the last occurrence, hence the `reverse`. -/
def jlookup (key : String) (fields : List (String × Jval)) : Option Jval :=
  (fields.reverse.find? (fun kv => kv.1 == key)).map (fun kv => kv.2)

/-- `type LatLonPair []float32` (floats modelled as rationals). -/
abbrev LatLonPair := List ℚ

/-- `var NoPathDuration = float32(-1)`. -/
def NoPathDuration : ℚ := -1

/-- One element of the array processed by `LatLonPair.UnmarshalJSON`
(source lines 266-291 of the client file):
`nil` becomes `NoPathDuration`; the `case float64` branch applies
`float32(t)` (the identity here); the source's `float32`, `int`, `int32`,
`int64`, `uint`, `uint32`, `uint64` cases can never fire, because
`json.Unmarshal` into `interface{}` represents every JSON number as
`float64`; every remaining dynamic type (bool, string, array, object)
falls to the `default` branch, which appends `NoPathDuration`. -/
def latLonElem : Jval → ℚ
  | .null => NoPathDuration
  | .num q => q
  | .bool _ => NoPathDuration
  | .str _ => NoPathDuration
  | .arr _ => NoPathDuration
  | .obj _ => NoPathDuration

/-- `func (llp *LatLonPair) UnmarshalJSON(b []byte) error`.
`json.Unmarshal(b, &irecv)` with `irecv []interface{}` errors exactly when
the top-level value is neither an array nor `null` (a JSON `null`
unmarshals into a slice by setting it to `nil`, with no error); on `null`
the loop body never runs and `*llp` is set to the nil slice. -/
def latLonPairUnmarshalJSON : Jval → Except String LatLonPair
  | .null => .ok []
  | .arr xs => .ok (xs.map latLonElem)
  | .bool _ => .error "json: cannot unmarshal bool into Go value of type []interface {}"
  | .num _ => .error "json: cannot unmarshal number into Go value of type []interface {}"
  | .str _ => .error "json: cannot unmarshal string into Go value of type []interface {}"
  | .obj _ => .error "json: cannot unmarshal object into Go value of type []interface {}"

/-- Decoding a `*LatLonPair` field: on JSON `null` the decoder sets the
pointer to nil and does not invoke `UnmarshalJSON`; otherwise the custom
unmarshaler above runs on the element. -/
def unmarshalLatLonPairPtr (v : Jval) : Except String (Option LatLonPair) :=
  match v with
  | .null => .ok none
  | v => (latLonPairUnmarshalJSON v).map some

/-- `type DurationResponse struct { Durations []*LatLonPair }`. -/
structure DurationResponse where
  Durations : List (Option LatLonPair)

/-- Decoding a JSON value into `DurationResponse` (`json.Unmarshal(slurp, dres)`):
top-level must be an object or null; the `durations` field must be an
array or null; each row decodes through `unmarshalLatLonPairPtr`. -/
def unmarshalDurationResponse : Jval → Except String DurationResponse
  | .null => .ok ⟨[]⟩
  | .obj fs =>
    match jlookup "durations" fs with
    | none => .ok ⟨[]⟩
    | some .null => .ok ⟨[]⟩
    | some (.arr xs) =>
      match xs.mapM unmarshalLatLonPairPtr with
      | .error e => .error e
      | .ok rows => .ok ⟨rows⟩
    | some _ => .error "json: cannot unmarshal into Go struct field DurationResponse.durations of type []*mapbox.LatLonPair"
  | _ => .error "json: cannot unmarshal into Go value of type mapbox.DurationResponse"

/-- `type GeocodeRequest struct` with fields
`Country []string`, `Limit uint`, `Types []GeocodeType`,
`Proximity *LatLonPair`, `BoundingBox []float32`, `AutoComplete bool`,
all tagged `omitempty`.  `GeocodeType` is a string type, so `Types` is a
list of strings on the wire; `Limit` is an unsigned integer (`Nat`). -/
structure GeocodeRequest where
  Country : List String
  Limit : Nat
  Types : List String
  Proximity : Option LatLonPair
  BoundingBox : List ℚ
  AutoComplete : Bool

/-- The JSON object produced by `json.Marshal` on a `GeocodeRequest`,
honouring the `omitempty` tags: empty slices, zero, nil pointers and
`false` are omitted; fields appear in struct order under their tag names
`country`, `limit`, `types`, `proximity`, `bbox`, `autocomplete`. -/
def geocodeFields (r : GeocodeRequest) : List (String × Jval) :=
  (if r.Country = [] then [] else [("country", Jval.arr (r.Country.map Jval.str))]) ++
  (if r.Limit = 0 then [] else [("limit", Jval.num r.Limit)]) ++
  (if r.Types = [] then [] else [("types", Jval.arr (r.Types.map Jval.str))]) ++
  (match r.Proximity with
   | none => []
   | some xs => [("proximity", Jval.arr (xs.map Jval.num))]) ++
  (if r.BoundingBox = [] then [] else [("bbox", Jval.arr (r.BoundingBox.map Jval.num))]) ++
  (if r.AutoComplete = false then [] else [("autocomplete", Jval.bool r.AutoComplete)])

/-- `json.Marshal(v)` for the `*GeocodeRequest` argument `toURLValues`
receives: a nil pointer marshals to the JSON literal `null`, a non-nil one
to the object described by `geocodeFields`. -/
def marshalRequestFilter : Option GeocodeRequest → Jval
  | none => Jval.null
  | some r => Jval.obj (geocodeFields r)

/-- `json.Unmarshal(blob, &recv)` with `recv map[string]interface{}`:
JSON `null` sets the map to nil with no error (so iteration sees no keys);
an object yields its fields; any other top level is a decode error. -/
def unmarshalGenericMap : Jval → Except String (List (String × Jval))
  | .null => .ok []
  | .obj fs => .ok fs
  | _ => .error "json: cannot unmarshal into Go value of type map[string]interface {}"

/-- `url.Values` restricted to what the claims need: the multiset of
`(key, value)` parameter occurrences, kept in emission order.  `Add`
appends a pair. -/
abbrev Values := List (String × String)

/-- The parameters the `toURLValues` type switch (source lines 100-121)
emits for a single map entry.  The scrutinee comes from `json.Unmarshal`
into `interface{}`, whose dynamic type is always one of nil, `bool`,
`float64`, `string`, `[]interface{}`, `map[string]interface{}`.  Hence:
`case string` and `case bool` can fire; the `case uint`,
`case []float32`, `case []string` and `case *LatLonPair` arms match none
of those dynamic types and are unreachable, so JSON numbers (`.num`),
arrays (`.arr`) and nested objects (`.obj`) all fall to the empty
`default` branch and emit nothing.  A nil value is skipped before the
switch (`if ival == nil { continue }`). -/
def paramsFor (key : String) : Jval → Values
  | .null => []
  | .str s => [(key, s)]
  | .bool b => [(key, if b then "true" else "false")]
  | .num _ => []
  | .arr _ => []
  | .obj _ => []

/-- The loop of `toURLValues`: fold over the decoded map's entries,
appending each entry's parameters (`outValues.Add`). -/
def urlValuesOfFields (fs : List (String × Jval)) : Values :=
  fs.foldl (fun acc kv => acc ++ paramsFor kv.1 kv.2) []

/-- `func toURLValues(v interface{}) (url.Values, error)`, specialised to
the only argument type the package passes it (`*GeocodeRequest`): marshal
to JSON, re-decode into a generic map, then run the type switch over the
entries. -/
def toURLValues (v : Option GeocodeRequest) : Except String Values :=
  match unmarshalGenericMap (marshalRequestFilter v) with
  | .error e => .error e
  | .ok fields => .ok (urlValuesOfFields fields)

/-- The fields the generic map holds for a given filter argument. -/
def genericFields : Option GeocodeRequest → List (String × Jval)
  | none => []
  | some r => geocodeFields r

/-- Total form of `toURLValues` (it never fails on its actual argument
type, see `toURLValues_eq`). -/
def urlValuesOf (v : Option GeocodeRequest) : Values :=
  urlValuesOfFields (genericFields v)

theorem toURLValues_eq (v : Option GeocodeRequest) :
    toURLValues v = .ok (urlValuesOf v) := by
  cases v <;> rfl

theorem urlValuesOfFields_eq (fs : List (String × Jval)) :
    urlValuesOfFields fs = fs.flatMap (fun kv => paramsFor kv.1 kv.2) := by
  have aux : ∀ (l : List (String × Jval)) (acc : Values),
      l.foldl (fun acc kv => acc ++ paramsFor kv.1 kv.2) acc
        = acc ++ l.flatMap (fun kv => paramsFor kv.1 kv.2) := by
    intro l
    induction l with
    | nil => intro acc; simp
    | cons kv tl ih => intro acc; simp [List.foldl, ih, List.append_assoc]
  simpa using aux fs []

theorem key_of_mem_paramsFor (k : String) (v : Jval) (p : String × String)
    (h : p ∈ paramsFor k v) : p.1 = k := by
  cases v <;> simp [paramsFor] at h <;> simp [h]

/-- Uppercase hexadecimal digit, as `net/url` uses (`%XX` with capital
letters). -/
def hexDigit (n : Nat) : Char :=
  if n < 10 then Char.ofNat (48 + n) else Char.ofNat (55 + n)

/-- Two-digit uppercase hexadecimal rendering of a byte. -/
def hexByte (n : Nat) : String :=
  String.mk [hexDigit (n / 16 % 16), hexDigit (n % 16)]

/-- UTF-8 bytes of a code point (Go strings are byte sequences; escaping
works byte by byte). -/
def utf8Bytes (n : Nat) : List Nat :=
  if n < 128 then [n]
  else if n < 2048 then [192 + n / 64, 128 + n % 64]
  else if n < 65536 then [224 + n / 4096, 128 + n / 64 % 64, 128 + n % 64]
  else [240 + n / 262144, 128 + n / 4096 % 64, 128 + n / 64 % 64, 128 + n % 64]

/-- The characters `url.QueryEscape` leaves unescaped: ASCII alphanumerics
and `-` `_` `.` `~` (Lean's `Char.isAlphanum` is ASCII-only, matching Go's
byte test). -/
def isUnreserved (c : Char) : Bool :=
  c.isAlphanum || c = '-' || c = '_' || c = '.' || c = '~'

/-- `url.QueryEscape`: unreserved characters verbatim, space as `+`, every
other byte percent-encoded. -/
def queryEscape (s : String) : String :=
  String.join (s.toList.map (fun c =>
    if isUnreserved c then String.mk [c]
    else if c = ' ' then "+"
    else String.join ((utf8Bytes c.toNat).map (fun b => "%" ++ hexByte b))))

/-- Insertion into a sorted list of strings.  Go's `sort.Strings` orders
byte-lexicographically; on UTF-8 that coincides with the code-point
lexicographic order of `String.le` used here. -/
def insertSorted (s : String) : List String → List String
  | [] => [s]
  | t :: ts => if s ≤ t then s :: t :: ts else t :: insertSorted s ts

/-- `sort.Strings` as used by `url.Values.Encode`. -/
def sortStrings (l : List String) : List String := l.foldr insertSorted []

/-- All parameter occurrences under one key, in insertion (`Add`) order. -/
def valuesGet (vs : Values) (k : String) : List String :=
  (vs.filter (fun p => p.1 == k)).map (fun p => p.2)

/-- `url.Values.Encode`: sort the distinct keys, then for each key emit
`escape(key)=escape(value)` for each of its values in order, joined by
`&`. -/
def valuesEncode (vs : Values) : String :=
  let ks := sortStrings ((vs.map (fun p => p.1)).eraseDups)
  String.intercalate "&"
    (ks.flatMap (fun k =>
      (valuesGet vs k).map (fun v => queryEscape k ++ "=" ++ queryEscape v)))

/-- `type Client struct { sync.RWMutex; version, apiKey string;
httpClient *http.Client }`.  The lock only guards field access and the
injected transport is passed to each operation explicitly, so the model
keeps the two string fields. -/
structure Client where
  version : String
  apiKey : String

/-- `func (c *Client) APIKey() string`: the per-client key when non-empty,
else the process-wide `defaultEnvAPIKey` captured from the environment at
start-up (threaded through as the `env` argument). -/
def APIKey (env : String) (c : Client) : String :=
  if c.apiKey ≠ "" then c.apiKey else env

/-- `const defaultAPIVersion = "v1"`. -/
def defaultAPIVersion : String := "v1"

/-- `func (c *Client) APIVersion() string`. -/
def APIVersion (c : Client) : String :=
  if c.version ≠ "" then c.version else defaultAPIVersion

/-- `var baseURL = "https://api.mapbox.com"`. -/
def baseURL : String := "https://api.mapbox.com"

/-- `func (c *Client) durationsURL() string`. -/
def durationsURL (env : String) (c : Client) : String :=
  baseURL ++ "/distances/" ++ APIVersion c ++ "/mapbox/driving?access_token="
    ++ APIKey env c

/-- `func statusOK(c int) bool { return c >= 200 && c <= 299 }`. -/
def statusOK (c : Int) : Bool := 200 ≤ c && c ≤ 299

/-- An outbound HTTP request as handed to the transport. -/
structure HTTPRequest where
  method : String
  url : String
  body : Jval

/-- An HTTP response: numeric status code, status line text
(`res.Status`, e.g. `"404 Not Found"`), and the JSON body. -/
structure HTTPResponse where
  statusCode : Int
  status : String
  body : Jval

/-- `net/url` rejects raw URLs containing ASCII control characters; for a
URL built by plain string concatenation this is the failure mode of
`http.NewRequest` that a malformed API key can trigger. -/
def hasCtlChar (s : String) : Bool :=
  s.toList.any (fun c => c.toNat < 32 || c.toNat == 127)

/-- `http.NewRequest(method, url, body)`: `none` models the `(nil, err)`
return when the URL does not parse. -/
def newRequest (method urlStr : String) (body : Jval) : Option HTTPRequest :=
  if hasCtlChar urlStr then none else some ⟨method, urlStr, body⟩

/-- `type DurationRequest struct { Coordinates []*LatLonPair }`. -/
structure DurationRequest where
  Coordinates : List (Option LatLonPair)

/-- `json.Marshal` of a `*LatLonPair`: nil pointer marshals to `null`,
otherwise to the numeric array (the sentinel is not re-encoded as
`null`). -/
def marshalLatLonPairPtr : Option LatLonPair → Jval
  | none => Jval.null
  | some xs => Jval.arr (xs.map Jval.num)

/-- `json.Marshal(dreq)`: the `coordinates` field has no `omitempty`, so
it is always present.  On finite rationals this marshal cannot fail. -/
def marshalDurationRequest (dreq : DurationRequest) : Jval :=
  Jval.obj [("coordinates", Jval.arr (dreq.Coordinates.map marshalLatLonPairPtr))]

/-- The tail of `RequestDuration` after the transport call: a transport
error propagates; a non-2xx status becomes `fmt.Errorf("%s", res.Status)`
before any read or decode of the body; on 2xx the body decodes as a
`DurationResponse`. -/
def handleDurationHTTPResult : Except String HTTPResponse → Except String DurationResponse
  | .error e => .error e
  | .ok res =>
    if statusOK res.statusCode then unmarshalDurationResponse res.body
    else .error res.status

/-- `func (c *Client) RequestDuration(dreq *DurationRequest)`: marshal the
body, then `req, _ := http.NewRequest("POST", c.durationsURL(), ...)` —
the error is discarded — and `req` (possibly nil) goes straight to
`httpClient.Do`. -/
def RequestDuration (env : String) (c : Client)
    (transport : Option HTTPRequest → Except String HTTPResponse)
    (dreq : DurationRequest) : Except String DurationResponse :=
  let blob := marshalDurationRequest dreq
  let req := newRequest "POST" (durationsURL env c) blob
  handleDurationHTTPResult (transport req)

/-- `func (gm GeocodeMode) String() string`: the empty mode prints as the
standard places mode.  `fmt.Sprintf("%s", req.Mode)` in
`doGeoCodingRequest` invokes this method (value receiver, so `GeocodeMode`
implements `fmt.Stringer`). -/
def geocodeModeString (gm : String) : String :=
  if gm = "" then "mapbox.places" else gm

/-- `type ReverseGeocodeRequest struct { Query string; Mode GeocodeMode;
Request *GeocodeRequest }`. -/
structure ReverseGeocodeRequest where
  Query : String
  Mode : String
  Request : Option GeocodeRequest

/-- `type GeocodeResponse struct`: `Type` and `Query` are decoded; the
elements of `features` are carried in their JSON form (their inner fields
play no role in the stated properties). -/
structure GeocodeResponse where
  rtype : String
  query : Option LatLonPair
  features : List Jval

/-- Decoding the `features` field (`[]*GeocodeFeature`): must be an array
or null; each element must be an object or null. -/
def unmarshalFeatures : Jval → Except String (List Jval)
  | .null => .ok []
  | .arr xs =>
    if xs.all (fun x => match x with | .obj _ => true | .null => true | _ => false)
    then .ok xs
    else .error "json: cannot unmarshal into Go value of type mapbox.GeocodeFeature"
  | _ => .error "json: cannot unmarshal into Go value of type []*mapbox.GeocodeFeature"

/-- Decoding the `type` field of a `GeocodeResponse`. -/
def unmarshalTypeField (fs : List (String × Jval)) : Except String String :=
  match jlookup "type" fs with
  | none => .ok ""
  | some .null => .ok ""
  | some (.str s) => .ok s
  | some _ => .error "json: cannot unmarshal into Go struct field GeocodeResponse.type of type string"

/-- Decoding the `query` field (`*LatLonPair`) of a `GeocodeResponse`. -/
def unmarshalQueryField (fs : List (String × Jval)) : Except String (Option LatLonPair) :=
  match jlookup "query" fs with
  | none => .ok none
  | some v => unmarshalLatLonPairPtr v

/-- Decoding the `features` field of a `GeocodeResponse` (absent field is
left at its zero value). -/
def unmarshalFeaturesField (fs : List (String × Jval)) : Except String (List Jval) :=
  match jlookup "features" fs with
  | none => .ok []
  | some v => unmarshalFeatures v

/-- `json.Unmarshal(blob, gres)` for `gres *GeocodeResponse`. -/
def unmarshalGeocodeResponse : Jval → Except String GeocodeResponse
  | .null => .ok ⟨"", none, []⟩
  | .obj fs =>
    match unmarshalTypeField fs with
    | .error e => .error e
    | .ok t =>
      match unmarshalQueryField fs with
      | .error e => .error e
      | .ok q =>
        match unmarshalFeaturesField fs with
        | .error e => .error e
        | .ok feats => .ok ⟨t, q, feats⟩
  | _ => .error "json: cannot unmarshal into Go value of type mapbox.GeocodeResponse"

/-- `func (c *Client) doGeoCodingRequest(req *ReverseGeocodeRequest)`:
encode the optional filter, `Add` the access token, build
`{baseURL}/geocoding/v5/{mode}/{query}.json?{params}`, GET it over the
injected transport, check the status, decode the body. -/
def doGeoCodingRequest (env : String) (c : Client)
    (get : String → Except String HTTPResponse)
    (req : ReverseGeocodeRequest) : Except String GeocodeResponse :=
  match toURLValues req.Request with
  | .error e => .error e
  | .ok vals =>
    let vals2 := vals ++ [("access_token", APIKey env c)]
    let outURL := baseURL ++ "/geocoding/v5/" ++ geocodeModeString req.Mode
        ++ "/" ++ req.Query ++ ".json?" ++ valuesEncode vals2
    match get outURL with
    | .error e => .error e
    | .ok res =>
      if statusOK res.statusCode then unmarshalGeocodeResponse res.body
      else .error res.status

/-- `func (c *Client) ReverseGeocoding(req *ReverseGeocodeRequest)`. -/
def ReverseGeocoding (env : String) (c : Client)
    (get : String → Except String HTTPResponse)
    (req : ReverseGeocodeRequest) : Except String GeocodeResponse :=
  doGeoCodingRequest env c get req

/-- `func (c *Client) LookupPlace(query string)`: a request holding only
the query (zero-valued mode, nil filter pointer). -/
def LookupPlace (env : String) (c : Client)
    (get : String → Except String HTTPResponse)
    (query : String) : Except String GeocodeResponse :=
  doGeoCodingRequest env c get ⟨query, "", none⟩

/-- Left-pad a six-digit decimal fraction with zeros. -/
def pad6 (n : Nat) : String :=
  let s := toString n
  String.mk (List.replicate (6 - s.length) '0') ++ s

/-- Go's `%f` formatting of a float: fixed point with six fractional
digits.  The model rounds the exact rational to six places. -/
def goFmtF (q : ℚ) : String :=
  let n : Nat := (Rat.floor (|q| * 1000000 + 1 / 2)).toNat
  (if q < 0 then "-" else "") ++ toString (n / 1000000) ++ "." ++ pad6 (n % 1000000)

/-- `fmt.Sprintf("%f,%f", a, b)`. -/
def goSprintfFF (a b : ℚ) : String := goFmtF a ++ "," ++ goFmtF b

/-- `func (c *Client) LookupLatLon(lat, lon float64)`: the format call is
`fmt.Sprintf("%f,%f", lon, lat)` — longitude first. -/
def LookupLatLon (env : String) (c : Client)
    (get : String → Except String HTTPResponse)
    (lat lon : ℚ) : Except String GeocodeResponse :=
  ReverseGeocoding env c get ⟨goSprintfFF lon lat, "", none⟩

/-- Probe used to observe which request an operation hands the transport:
it fails with a description of its argument, which the operation then
returns verbatim. -/
def describeRequest : Option HTTPRequest → String
  | none => "<nil request>"
  | some r => r.method ++ " " ++ r.url

theorem key_of_mem_urlValuesOf (r : GeocodeRequest) (p : String × String)
    (hp : p ∈ urlValuesOf (some r)) : ∃ kv ∈ geocodeFields r, p.1 = kv.1 := by
  unfold urlValuesOf genericFields at hp
  rw [urlValuesOfFields_eq, List.mem_flatMap] at hp
  obtain ⟨kv, hkv, hpk⟩ := hp
  exact ⟨kv, hkv, key_of_mem_paramsFor kv.1 kv.2 p hpk⟩

theorem key_mem_geocodeFields (r : GeocodeRequest) (kv : String × Jval)
    (h : kv ∈ geocodeFields r) :
    (kv.1 = "country" ∧ r.Country ≠ []) ∨ (kv.1 = "limit" ∧ r.Limit ≠ 0) ∨
    (kv.1 = "types" ∧ r.Types ≠ []) ∨ (kv.1 = "proximity" ∧ r.Proximity ≠ none) ∨
    (kv.1 = "bbox" ∧ r.BoundingBox ≠ []) ∨
    (kv.1 = "autocomplete" ∧ r.AutoComplete ≠ false) := by
  unfold geocodeFields at h
  simp only [List.mem_append, List.mem_singleton] at h
  rcases h with ((((h | h) | h) | h) | h) | h <;> split at h <;> simp_all

/-- Claim C1 (refuting evaluation): the per-type parameter table does not
describe the code's behaviour.  `json.Unmarshal` into `interface{}`
represents every JSON number as `float64` and every JSON array as
`[]interface{}`, so the `uint`, `[]float32`, `[]string` and `*LatLonPair`
arms of the type switch in `toURLValues` can never fire: a
`GeocodeRequest` carrying only `Limit` encodes to an empty parameter set
(not to one parameter), and country lists, proximity pairs and bounding
boxes are all silently dropped as well. -/
theorem claim_C1 :
    toURLValues (some ⟨[], 1, [], none, [], false⟩) = .ok [] ∧
    toURLValues (some ⟨["us"], 0, [], none, [], false⟩) = .ok [] ∧
    toURLValues (some ⟨[], 0, [], some [1, 2], [], false⟩) = .ok [] ∧
    toURLValues (some ⟨[], 0, [], none, [1 / 2], false⟩) = .ok [] :=
  ⟨rfl, rfl, rfl, rfl⟩

/-- Claim C2: decoding a JSON array as a `LatLonPair` maps the elements
pointwise: `null` becomes the sentinel `NoPathDuration = -1`; a numeric
value becomes its 32-bit float conversion (the identity on the exact
rationals of the model), so a literal 0 stays 0, never the sentinel; every
other element type becomes the sentinel rather than causing an error. -/
theorem claim_C2 :
    (∀ xs : List Jval,
        latLonPairUnmarshalJSON (Jval.arr xs) = .ok (xs.map latLonElem)) ∧
    latLonElem Jval.null = NoPathDuration ∧ NoPathDuration = -1 ∧
    (∀ q : ℚ, latLonElem (Jval.num q) = q) ∧
    latLonElem (Jval.num 0) = 0 ∧ (0 : ℚ) ≠ NoPathDuration ∧
    (∀ b, latLonElem (Jval.bool b) = NoPathDuration) ∧
    (∀ s, latLonElem (Jval.str s) = NoPathDuration) ∧
    (∀ ys, latLonElem (Jval.arr ys) = NoPathDuration) ∧
    (∀ gs, latLonElem (Jval.obj gs) = NoPathDuration) :=
  ⟨fun _ => rfl, rfl, rfl, fun _ => rfl, rfl, by norm_num [NoPathDuration],
   fun _ => rfl, fun _ => rfl, fun _ => rfl, fun _ => rfl⟩

/-- Claim C3 as frozen ("a decode error if and only if the top-level JSON
value is not an array") is refuted at the concrete input `null`: the
decoder succeeds there although `null` is not an array. -/
theorem claim_C3_cex :
    ¬ (∀ v : Jval,
        (∃ e, latLonPairUnmarshalJSON v = .error e) ↔ (∀ xs, v ≠ Jval.arr xs)) := by
  intro h
  obtain ⟨e, he⟩ := (h Jval.null).2 (fun xs hx => Jval.noConfusion hx)
  exact absurd he (by simp [latLonPairUnmarshalJSON])

/-- Claim C3 (amended): `LatLonPair.UnmarshalJSON` returns a decode error
if and only if the top-level JSON value is neither an array nor `null`
(JSON `null` unmarshals into the slice as an errorless no-op); every array
input succeeds regardless of its elements. -/
theorem claim_C3 :
    (∀ v : Jval, (∃ e, latLonPairUnmarshalJSON v = .error e)
        ↔ ((∀ xs, v ≠ Jval.arr xs) ∧ v ≠ Jval.null)) ∧
    (∀ xs : List Jval, ∃ ys, latLonPairUnmarshalJSON (Jval.arr xs) = .ok ys) := by
  constructor
  · intro v; cases v <;> simp [latLonPairUnmarshalJSON]
  · exact fun xs => ⟨xs.map latLonElem, rfl⟩

/-- Claim C4: `statusOK` holds exactly on 200..299, and on any response
with a status code outside that range both `RequestDuration` and the
geocoding request path fail with the HTTP status text as the error
message, uniformly in the body — the body is never JSON-decoded. -/
theorem claim_C4 :
    (∀ code : Int, statusOK code = true ↔ (200 ≤ code ∧ code ≤ 299)) ∧
    (∀ (env : String) (c : Client) (dreq : DurationRequest) (code : Int)
        (status : String) (body : Jval), statusOK code = false →
      RequestDuration env c (fun _ => .ok ⟨code, status, body⟩) dreq
        = .error status) ∧
    (∀ (env : String) (c : Client) (req : ReverseGeocodeRequest) (code : Int)
        (status : String) (body : Jval), statusOK code = false →
      doGeoCodingRequest env c (fun _ => .ok ⟨code, status, body⟩) req
        = .error status) := by
  refine ⟨?_, ?_, ?_⟩
  · intro code; simp [statusOK]
  · intro env c dreq code status body h
    simp [RequestDuration, handleDurationHTTPResult, h]
  · intro env c req code status body h
    simp [doGeoCodingRequest, toURLValues_eq, h]

/-- Witness for C4 at status 404. -/
theorem claim_C4_witness :
    statusOK 404 = false ∧
    RequestDuration "" ⟨"", ""⟩
        (fun _ => .ok ⟨404, "404 Not Found", Jval.null⟩) ⟨[]⟩
      = .error "404 Not Found" ∧
    doGeoCodingRequest "" ⟨"", ""⟩
        (fun _ => .ok ⟨404, "404 Not Found", Jval.null⟩) ⟨"q", "", none⟩
      = .error "404 Not Found" :=
  ⟨by decide,
   claim_C4.2.1 "" ⟨"", ""⟩ ⟨[]⟩ 404 "404 Not Found" Jval.null (by decide),
   claim_C4.2.2 "" ⟨"", ""⟩ ⟨"q", "", none⟩ 404 "404 Not Found" Jval.null (by decide)⟩

/-- Claim C5: every unset optional field of a `GeocodeRequest` (empty
list, zero limit, nil proximity pointer, false flag — each omitted by its
`omitempty` tag) contributes no parameter occurrence at all to the encoded
query-parameter set. -/
theorem claim_C5 (r : GeocodeRequest) :
    toURLValues (some r) = .ok (urlValuesOf (some r)) ∧
    (r.Country = [] → ∀ p ∈ urlValuesOf (some r), p.1 ≠ "country") ∧
    (r.Limit = 0 → ∀ p ∈ urlValuesOf (some r), p.1 ≠ "limit") ∧
    (r.Types = [] → ∀ p ∈ urlValuesOf (some r), p.1 ≠ "types") ∧
    (r.Proximity = none → ∀ p ∈ urlValuesOf (some r), p.1 ≠ "proximity") ∧
    (r.BoundingBox = [] → ∀ p ∈ urlValuesOf (some r), p.1 ≠ "bbox") ∧
    (r.AutoComplete = false → ∀ p ∈ urlValuesOf (some r), p.1 ≠ "autocomplete") := by
  refine ⟨toURLValues_eq _, ?_, ?_, ?_, ?_, ?_, ?_⟩ <;>
  · intro hset p hp heq
    obtain ⟨kv, hkv, hpk⟩ := key_of_mem_urlValuesOf r p hp
    have hd := key_mem_geocodeFields r kv hkv
    rw [heq] at hpk
    rcases hd with ⟨h1, h2⟩ | ⟨h1, h2⟩ | ⟨h1, h2⟩ | ⟨h1, h2⟩ | ⟨h1, h2⟩ | ⟨h1, h2⟩ <;>
      simp_all

/-- Witness for C5 at the all-unset request. -/
theorem claim_C5_witness :
    toURLValues (some ⟨[], 0, [], none, [], false⟩)
      = .ok (urlValuesOf (some ⟨[], 0, [], none, [], false⟩)) ∧
    (∀ p ∈ urlValuesOf (some ⟨[], 0, [], none, [], false⟩), p.1 ≠ "country") ∧
    (∀ p ∈ urlValuesOf (some ⟨[], 0, [], none, [], false⟩), p.1 ≠ "limit") ∧
    (∀ p ∈ urlValuesOf (some ⟨[], 0, [], none, [], false⟩), p.1 ≠ "types") ∧
    (∀ p ∈ urlValuesOf (some ⟨[], 0, [], none, [], false⟩), p.1 ≠ "proximity") ∧
    (∀ p ∈ urlValuesOf (some ⟨[], 0, [], none, [], false⟩), p.1 ≠ "bbox") ∧
    (∀ p ∈ urlValuesOf (some ⟨[], 0, [], none, [], false⟩), p.1 ≠ "autocomplete") := by
  have h := claim_C5 ⟨[], 0, [], none, [], false⟩
  exact ⟨h.1, h.2.1 rfl, h.2.2.1 rfl, h.2.2.2.1 rfl, h.2.2.2.2.1 rfl,
    h.2.2.2.2.2.1 rfl, h.2.2.2.2.2.2 rfl⟩

/-- Claim C6: the geocoding operation GETs
`{baseURL}/geocoding/v5/{mode}/{query}.json?{params}` where the parameter
set is the encoded filter with the access token appended, and the mode
component (rendered through `GeocodeMode.String`) is the standard places
mode whenever `Mode` is empty. -/
theorem claim_C6 (env : String) (c : Client) (req : ReverseGeocodeRequest) :
    doGeoCodingRequest env c (fun u => .error u) req
      = .error (baseURL ++ "/geocoding/v5/" ++ geocodeModeString req.Mode ++ "/"
          ++ req.Query ++ ".json?"
          ++ valuesEncode (urlValuesOf req.Request
              ++ [("access_token", APIKey env c)])) ∧
    geocodeModeString "" = "mapbox.places" := by
  refine ⟨?_, rfl⟩
  simp [doGeoCodingRequest, toURLValues_eq]

/-- Claim C7: the duration-matrix operation POSTs to
`{baseURL}/distances/{version}/mapbox/driving?access_token={key}` with the
client's version when set and the fixed default `"v1"` otherwise. -/
theorem claim_C7 (env : String) (c : Client) (dreq : DurationRequest)
    (h : hasCtlChar (durationsURL env c) = false) :
    durationsURL env c
      = baseURL ++ "/distances/" ++ (if c.version = "" then "v1" else c.version)
          ++ "/mapbox/driving?access_token=" ++ APIKey env c ∧
    RequestDuration env c (fun r => .error (describeRequest r)) dreq
      = .error ("POST " ++ durationsURL env c) := by
  constructor
  · by_cases hv : c.version = "" <;>
      simp [durationsURL, APIVersion, defaultAPIVersion, hv]
  · simp [RequestDuration, newRequest, h, handleDurationHTTPResult,
      describeRequest]

/-- Witness for C7 with an explicit version and with the default. -/
theorem claim_C7_witness :
    (durationsURL "ENVKEY" ⟨"", "secret"⟩
      = baseURL ++ "/distances/"
          ++ (if ("" : String) = "" then "v1" else "")
          ++ "/mapbox/driving?access_token=" ++ APIKey "ENVKEY" ⟨"", "secret"⟩) ∧
    RequestDuration "ENVKEY" ⟨"", "secret"⟩
        (fun r => .error (describeRequest r)) ⟨[]⟩
      = .error ("POST " ++ durationsURL "ENVKEY" ⟨"", "secret"⟩) :=
  claim_C7 "ENVKEY" ⟨"", "secret"⟩ ⟨[]⟩ (by decide)

/-- Claim C8: `LookupLatLon(lat, lon)` formats its query as the longitude
first, then the latitude, each in fixed-point `%f` notation, and that
query becomes the path component of the geocoding URL. -/
theorem claim_C8 (env : String) (c : Client) (lat lon : ℚ) :
    LookupLatLon env c (fun u => .error u) lat lon
      = .error (baseURL ++ "/geocoding/v5/" ++ "mapbox.places" ++ "/"
          ++ goSprintfFF lon lat ++ ".json?"
          ++ valuesEncode [("access_token", APIKey env c)]) ∧
    goSprintfFF lon lat = goFmtF lon ++ "," ++ goFmtF lat := by
  refine ⟨?_, rfl⟩
  simp [LookupLatLon, ReverseGeocoding, doGeoCodingRequest, toURLValues_eq,
    urlValuesOf, genericFields, urlValuesOfFields, geocodeModeString]

/-- Claim C9: `RequestDuration` discards the error from
`http.NewRequest`: whenever the derived durations URL is invalid, the nil
request travels on to the transport and the call's outcome is entirely
whatever the transport makes of it — no URL error reaches the caller
before network I/O. -/
theorem claim_C9 (env : String) (c : Client)
    (transport : Option HTTPRequest → Except String HTTPResponse)
    (dreq : DurationRequest)
    (h : hasCtlChar (durationsURL env c) = true) :
    newRequest "POST" (durationsURL env c) (marshalDurationRequest dreq) = none ∧
    RequestDuration env c transport dreq
      = handleDurationHTTPResult (transport none) := by
  constructor
  · simp [newRequest, h]
  · simp [RequestDuration, newRequest, h]

/-- Witness for C9: an API key containing a newline makes the durations
URL unparsable. -/
theorem claim_C9_witness :
    hasCtlChar (durationsURL "" ⟨"", "bad\nkey"⟩) = true ∧
    (newRequest "POST" (durationsURL "" ⟨"", "bad\nkey"⟩)
        (marshalDurationRequest ⟨[]⟩) = none ∧
     RequestDuration "" ⟨"", "bad\nkey"⟩ (fun _ => .error "transport") ⟨[]⟩
       = handleDurationHTTPResult
           ((fun (_ : Option HTTPRequest) => Except.error "transport")
             (none : Option HTTPRequest))) :=
  ⟨by decide,
   claim_C9 "" ⟨"", "bad\nkey"⟩ (fun _ => .error "transport") ⟨[]⟩ (by decide)⟩

/-- Claim C10: a nil filter encodes to the empty parameter set without
error (`json.Marshal(nil)` gives `null`, which unmarshals into the generic
map as an errorless no-op), so `LookupPlace` — which always passes a nil
filter — proceeds to the GET with `access_token` as the only query
parameter. -/
theorem claim_C10 (env : String) (c : Client) (query : String) :
    toURLValues none = .ok [] ∧
    LookupPlace env c (fun u => .error u) query
      = .error (baseURL ++ "/geocoding/v5/" ++ "mapbox.places" ++ "/" ++ query
          ++ ".json?" ++ valuesEncode [("access_token", APIKey env c)]) := by
  refine ⟨rfl, ?_⟩
  simp [LookupPlace, doGeoCodingRequest, toURLValues_eq, urlValuesOf,
    genericFields, urlValuesOfFields, geocodeModeString]

end Mapbox
